import Mathlib

/-!
Verification of the ETT issue-tracker integration service.

The repository contains two variants of an `ETTService` class (a login-based
variant and a locally-configured variant) sharing the same markdown ticket
parser `parseTicketsFromSummary`, plus UI components that are out of scope.

Strings are modelled as `List Char`.  The two JavaScript regular expressions
used by the parser are embedded by hand-compiling them into backtracking
candidate enumerations whose order reproduces the JS engine's priority
(leftmost match, greedy quantifiers tried longest-first, optional `?`
tried consume-first), so that the first candidate is the JS match.
-/

/-- The JS `\s` character class (ECMAScript WhiteSpace plus LineTerminator),
    as used by the regexes, by `String.prototype.trim`, and by our model. -/
def jsWs (c : Char) : Bool :=
  c == ' ' || c == '\t' || c == '\n' || c == '\r' || c == '\x0b' || c == '\x0c' ||
  c == '\u00A0' || c == '\u1680' || ('\u2000' ≤ c && c ≤ '\u200A') ||
  c == '\u2028' || c == '\u2029' || c == '\u202F' || c == '\u205F' ||
  c == '\u3000' || c == '\uFEFF'

/-- The JS `\w` character class. -/
def isWordChar (c : Char) : Bool :=
  ('a' ≤ c && c ≤ 'z') || ('A' ≤ c && c ≤ 'Z') || ('0' ≤ c && c ≤ '9') || c == '_'

/-- The JS `[^|]` character class (note: it matches newlines). -/
def notPipe (c : Char) : Bool := !(c == '|')

/-- The JS `[^|*]` character class. -/
def notPipeStar (c : Char) : Bool := !(c == '|') && !(c == '*')

/-- Model of `String.prototype.toLowerCase`, character-wise (ASCII-faithful). -/
def lowerStr (s : List Char) : List Char := s.map Char.toLower

/-- Model of `String.prototype.trim`: drop leading and trailing JS whitespace. -/
def jsTrim (s : List Char) : List Char :=
  ((s.dropWhile jsWs).reverse.dropWhile jsWs).reverse

/-- Model of `String.prototype.includes pat` (for non-empty `pat`):
    some suffix of the string starts with `pat`. -/
def hasSubstr (pat : List Char) : List Char → Bool
  | [] => pat.isPrefixOf []
  | c :: cs => pat.isPrefixOf (c :: cs) || hasSubstr pat cs

/-! ## The section regex

`/## Suggested Tickets\s*\n([\s\S]*?)(?=\n## |$)/i` applied with
`String.prototype.match` (first match, group 1).

At a candidate start the literal must match case-insensitively; then the
greedy `\s*` followed by `\n` consumes through the *last* newline of the
maximal whitespace run (backtracking from the longest run); the lazy
`([\s\S]*?)` then stops at the first position where `\n## ` follows, or at
the end of the input. -/

def headingKeyword : List Char := "## suggested tickets".toList

def nextHeadingMark : List Char := "\n## ".toList

/-- Match `\s*\n` greedily at the start of `r`; on success return the rest
    (which is where capture group 1 begins). -/
def afterLastNewline (r : List Char) : Option (List Char) :=
  let run := r.takeWhile jsWs
  if run.contains '\n' then
    some (r.drop (run.length - run.reverse.findIdx (· == '\n')))
  else none

/-- Try the whole regex at this start position; return the text at which
    capture group 1 begins (unbounded; the lookahead cut comes separately). -/
def matchHeadingAt (s : List Char) : Option (List Char) :=
  if headingKeyword.isPrefixOf (lowerStr s) then
    afterLastNewline (s.drop headingKeyword.length)
  else none

/-- The lazy `([\s\S]*?)(?=\n## |$)`: keep characters up to (excluding) the
    first position where `\n## ` follows, else up to the end. -/
def cutAtNextHeading : List Char → List Char
  | [] => []
  | c :: cs => if nextHeadingMark.isPrefixOf (c :: cs) then [] else c :: cutAtNextHeading cs

/-- Model of `summaryMarkdown.match(sectionRegex)`, returning capture group 1 of the
    leftmost match (`none` when the regex does not match). -/
def findSection : List Char → Option (List Char)
  | [] => none
  | c :: cs =>
    match matchHeadingAt (c :: cs) with
    | some content => some (cutAtNextHeading content)
    | none => findSection cs

/-! ## The table-row regex

`/\|\s*\*?\*?([^|*]+)\*?\*?\s*\|\s*([^|]+)\s*\|\s*(\w+)\s*\|/g` driven by an
`exec` loop.  Each regex part is compiled to a list of ways it can consume a
prefix of the text, in the JS engine's backtracking priority order; the
parts are then chained with `flatMap`, so the head of the candidate list is
the JS match at that start position. -/

/-- A literal character: consume it or fail. -/
def litSplit (c : Char) : List Char → List (List Char)
  | [] => []
  | x :: rest => if x = c then [rest] else []

/-- A greedy `c?`: consume the character if present (preferred), else not. -/
def optSplit (c : Char) : List Char → List (List Char)
  | [] => [[]]
  | x :: rest => if x = c then [rest, x :: rest] else [x :: rest]

/-- A greedy `cls*`: all splits (consumed run, rest), longest run first. -/
def splitsStar (cls : Char → Bool) (s : List Char) : List (List Char × List Char) :=
  let n := (s.takeWhile cls).length
  (List.range (n + 1)).map (fun i => (s.take (n - i), s.drop (n - i)))

/-- A greedy `cls+`: like `cls*` but the consumed run is non-empty. -/
def splitsPlus (cls : Char → Bool) (s : List Char) : List (List Char × List Char) :=
  (splitsStar cls s).filter (fun p => !p.1.isEmpty)

/-- The three capture groups of a successful row match. -/
structure RowMatch where
  title : List Char
  descr : List Char
  prio : List Char
deriving DecidableEq, Repr

/-- All ways the row regex can match starting exactly at `s`, in the JS
    backtracking priority order, with the text remaining after the match. -/
def rowCandidates (s : List Char) : List (RowMatch × List Char) :=
  (litSplit '|' s).flatMap fun s1 =>
  (splitsStar jsWs s1).flatMap fun q2 =>
  (optSplit '*' q2.2).flatMap fun s3 =>
  (optSplit '*' s3).flatMap fun s4 =>
  (splitsPlus notPipeStar s4).flatMap fun qt =>
  (optSplit '*' qt.2).flatMap fun s6 =>
  (optSplit '*' s6).flatMap fun s7 =>
  (splitsStar jsWs s7).flatMap fun q8 =>
  (litSplit '|' q8.2).flatMap fun s9 =>
  (splitsStar jsWs s9).flatMap fun q10 =>
  (splitsPlus notPipe q10.2).flatMap fun qd =>
  (splitsStar jsWs qd.2).flatMap fun q12 =>
  (litSplit '|' q12.2).flatMap fun s13 =>
  (splitsStar jsWs s13).flatMap fun q14 =>
  (splitsPlus isWordChar q14.2).flatMap fun qp =>
  (splitsStar jsWs qp.2).flatMap fun q16 =>
  (litSplit '|' q16.2).map fun s17 =>
  ({ title := qt.1, descr := qd.1, prio := qp.1 }, s17)

/-- Leftmost match of the row regex at or after the start of `s`. -/
def findRowFrom : List Char → Option (RowMatch × List Char)
  | [] => none
  | c :: cs =>
    match (rowCandidates (c :: cs)).head? with
    | some r => some r
    | none => findRowFrom cs

/-- The `while ((match = tableRowRegex.exec(ticketSection)) !== null)` loop:
    successive non-overlapping leftmost matches.  Every match consumes at
    least one character, so `s.length` steps of fuel are enough. -/
def execRowsAux : Nat → List Char → List RowMatch
  | 0, _ => []
  | fuel + 1, s =>
    match findRowFrom s with
    | none => []
    | some mr => mr.1 :: execRowsAux fuel mr.2

def execRows (s : List Char) : List RowMatch := execRowsAux s.length s

/-! ## Ticket construction -/

/-- A parsed ticket (`Partial<CreateIssueRequest>` as produced by the
    parser: only these four fields are ever set). -/
structure ParsedTicket where
  title : List Char
  description : List Char
  priority : List Char
  status : List Char
deriving DecidableEq, Repr

def validPriorities : List (List Char) :=
  ["urgent".toList, "high".toList, "medium".toList, "low".toList, "none".toList]

def mediumWord : List Char := "medium".toList

def backlogWord : List Char := "backlog".toList

def titleWord : List Char := "title".toList

def dashesWord : List Char := "---".toList

/-- The header-row skip test:
    `title.toLowerCase().includes('title') || title.includes('---')`. -/
def skipRow (t : List Char) : Bool :=
  hasSubstr titleWord (lowerStr t) || hasSubstr dashesWord t

/-- The object pushed for a non-skipped row. -/
def mkTicket (m : RowMatch) : ParsedTicket :=
  let np := lowerStr (jsTrim m.prio)
  { title := jsTrim m.title
  , description := jsTrim m.descr
  , priority := if validPriorities.contains np then np else mediumWord
  , status := backlogWord }

/-- `parseTicketsFromSummary` (identical in both service variants). -/
def parseTicketsFromSummary (s : List Char) : List ParsedTicket :=
  match findSection s with
  | none => []
  | some sec =>
    (execRows sec).foldl (fun acc m => if skipRow m.title then acc else acc ++ [mkTicket m]) []

/-! ## HTTP and service model

The remote side is modelled as an oracle mapping the index of a dispatched
fetch to its response; each world records the list of dispatched requests
(url and optional JSON body) in order, so that "no network call attempted"
is the statement that `calls` is unchanged. -/

/-- A `CreateIssueRequest` record. -/
structure CreateIssueRequest where
  board_id : Int
  title : List Char
  description : Option (List Char)
  status : Option (List Char)
  priority : Option (List Char)
  assignee_id : Option Int
  reporter_id : Int
  due_date : Option (List Char)
  estimated_hours : Option Int
  label_ids : Option (List Int)
deriving DecidableEq, Repr

/-- An HTTP response: its status, and the `message` field of its JSON body
    (`none` when the body is not parseable JSON, `some none` when it parses
    but has no usable `message`, `some (some m)` when `message` is `m`). -/
structure HttpResp where
  status : Nat
  jsonMsg : Option (Option (List Char))
deriving DecidableEq, Repr

/-- Model of `Response.ok`: status in the range 200-299. -/
def respOk (r : HttpResp) : Bool := 200 ≤ r.status && r.status ≤ 299

def unknownErrorMsg : List Char := "Unknown error".toList

def apiErrorMsg (status : Nat) : List Char :=
  "ETT API error: ".toList ++ (toString status).toList

/-- Error translation of a non-2xx response:
    `error.message || 'ETT API error: status'` with the json-parse fallback
    `{ message: 'Unknown error' }`. -/
def translateErr (r : HttpResp) : List Char :=
  match r.jsonMsg with
  | none => unknownErrorMsg
  | some none => apiErrorMsg r.status
  | some (some m) => if m.isEmpty then apiErrorMsg r.status else m

def boardsEndpoint : List Char := "/issue-tracker/boards".toList

def teamMembersEndpoint : List Char := "/issue-tracker/team-members".toList

def issuesEndpoint : List Char := "/issue-tracker/issues".toList

/-! ### Login-based variant (API URL from env, bearer token from login) -/

namespace LoginVariant

/-- The stored auth record (`ETTAuthState`). -/
structure ETTAuthState where
  accessToken : List Char
  refreshToken : Option (List Char)
  userId : Int
  userName : List Char
  expiresAt : Option Int
deriving DecidableEq, Repr

/-- Service state plus the modelled environment: `auth` is the in-memory
    record, `stored` the persisted `localStorage` copy, `oracle` the remote
    side, `calls` the trace of dispatched fetches. -/
structure World where
  apiUrl : List Char
  auth : Option ETTAuthState
  stored : Option ETTAuthState
  oracle : Nat → HttpResp
  calls : List (List Char × Option CreateIssueRequest)

/-- Model of `isAuthenticated(): !!this.auth?.accessToken`. -/
def isAuthenticated (w : World) : Bool :=
  match w.auth with
  | none => false
  | some a => !a.accessToken.isEmpty

/-- Model of `logout()`: clear the in-memory record and the persisted copy. -/
def logout (w : World) : World := { w with auth := none, stored := none }

/-- Result shape of `getAuthState()`: the redacted view. -/
structure AuthView where
  isAuthenticated : Bool
  userName : Option (List Char)
  userId : Option Int
deriving DecidableEq, Repr

def getAuthState (w : World) : AuthView :=
  { isAuthenticated := isAuthenticated w
  , userName := w.auth.map (fun a => a.userName)
  , userId := w.auth.map (fun a => a.userId) }

def noUrlMsg : List Char := "API URL not configured. Check .env file.".toList

def notAuthMsg : List Char := "Not authenticated. Please login first.".toList

def sessionExpiredMsg : List Char := "Session expired. Please login again.".toList

/-- The private `request` helper: guards, one fetch, 401 handling, error
    translation. -/
def request (endpoint : List Char) (body : Option CreateIssueRequest) (w : World) :
    World × Except (List Char) HttpResp :=
  if w.apiUrl.isEmpty then (w, .error noUrlMsg)
  else if !(isAuthenticated w) then (w, .error notAuthMsg)
  else
    let resp := w.oracle w.calls.length
    let w1 := { w with calls := w.calls ++ [(w.apiUrl ++ endpoint, body)] }
    if resp.status = 401 then (logout w1, .error sessionExpiredMsg)
    else if !(respOk resp) then (w1, .error (translateErr resp))
    else (w1, .ok resp)

def getBoards (w : World) : World × Except (List Char) HttpResp :=
  request boardsEndpoint none w

def getTeamMembers (w : World) : World × Except (List Char) HttpResp :=
  request teamMembersEndpoint none w

def getLabels (boardId : Int) (w : World) : World × Except (List Char) HttpResp :=
  request ("/issue-tracker/boards/".toList ++ (toString boardId).toList ++ "/labels".toList)
    none w

def createIssue (r : CreateIssueRequest) (w : World) : World × Except (List Char) HttpResp :=
  request issuesEndpoint (some r) w

/-- Model of `createIssues`: await each `createIssue` in order; a thrown error
    propagates and aborts the remainder. -/
def createIssues : List CreateIssueRequest → World → World × Except (List Char) (List HttpResp)
  | [], w => (w, .ok [])
  | r :: rs, w =>
    match createIssue r w with
    | (w1, .error e) => (w1, .error e)
    | (w1, .ok resp) =>
      match createIssues rs w1 with
      | (w2, .error e) => (w2, .error e)
      | (w2, .ok others) => (w2, .ok (resp :: others))

end LoginVariant

/-! ### Config-based variant (user-pasted API URL and token) -/

namespace ConfigVariant

/-- The stored `ETTConfig` record. -/
structure ETTConfig where
  apiUrl : List Char
  accessToken : List Char
  defaultBoardId : Option Int
  defaultReporterId : Option Int
deriving DecidableEq, Repr

/-- Service state plus environment.  In this variant the persisted copy is
    written and cleared together with `config` and never observed
    separately, so one field models both. -/
structure World where
  config : Option ETTConfig
  oracle : Nat → HttpResp
  calls : List (List Char × Option CreateIssueRequest)

/-- Model of `configure(config)`: replace the active record (and its persisted copy). -/
def configure (c : ETTConfig) (w : World) : World := { w with config := some c }

/-- Model of `clearConfig()`. -/
def clearConfig (w : World) : World := { w with config := none }

/-- Model of `isConfigured(): this.config !== null && !!this.config.apiUrl && !!this.config.accessToken`. -/
def isConfigured (w : World) : Bool :=
  match w.config with
  | none => false
  | some c => !c.apiUrl.isEmpty && !c.accessToken.isEmpty

/-- Result shape of `getConfig()`: the redacted view (`hasToken` instead of the token). -/
structure RedactedConfig where
  apiUrl : List Char
  defaultBoardId : Option Int
  defaultReporterId : Option Int
  hasToken : Bool
deriving DecidableEq, Repr

def getConfig (w : World) : Option RedactedConfig :=
  match w.config with
  | none => none
  | some c =>
    some { apiUrl := c.apiUrl
         , defaultBoardId := c.defaultBoardId
         , defaultReporterId := c.defaultReporterId
         , hasToken := !c.accessToken.isEmpty }

def notConfiguredMsg : List Char := "ETT Service not configured. Call configure() first.".toList

/-- The private `request` helper of this variant: the only pre-dispatch
    guard is `this.config === null`; no 401 special case. -/
def request (endpoint : List Char) (body : Option CreateIssueRequest) (w : World) :
    World × Except (List Char) HttpResp :=
  match w.config with
  | none => (w, .error notConfiguredMsg)
  | some c =>
    let resp := w.oracle w.calls.length
    let w1 := { w with calls := w.calls ++ [(c.apiUrl ++ endpoint, body)] }
    if respOk resp then (w1, .ok resp)
    else (w1, .error (translateErr resp))

def getBoards (w : World) : World × Except (List Char) HttpResp :=
  request boardsEndpoint none w

def getTeamMembers (w : World) : World × Except (List Char) HttpResp :=
  request teamMembersEndpoint none w

def getLabels (boardId : Int) (w : World) : World × Except (List Char) HttpResp :=
  request ("/issue-tracker/boards/".toList ++ (toString boardId).toList ++ "/labels".toList)
    none w

def createIssue (r : CreateIssueRequest) (w : World) : World × Except (List Char) HttpResp :=
  request issuesEndpoint (some r) w

/-- Model of `createIssues`: await each `createIssue` in order; a thrown error
    propagates and aborts the remainder. -/
def createIssues : List CreateIssueRequest → World → World × Except (List Char) (List HttpResp)
  | [], w => (w, .ok [])
  | r :: rs, w =>
    match createIssue r w with
    | (w1, .error e) => (w1, .error e)
    | (w1, .ok resp) =>
      match createIssues rs w1 with
      | (w2, .error e) => (w2, .error e)
      | (w2, .ok others) => (w2, .ok (resp :: others))

end ConfigVariant

/-! ## Spec-side definitions and sample inputs -/

/-- Ticket construction as the specification words it: title and description
    whitespace-trimmed; the priority cell trimmed and lower-cased and
    replaced by `medium` exactly when the result is not a member of the
    fixed priority enumeration; status `backlog` unconditionally. -/
def specMkTicket (m : RowMatch) : ParsedTicket :=
  let np := lowerStr (jsTrim m.prio)
  { title := jsTrim m.title
  , description := jsTrim m.descr
  , priority := if np ∈ validPriorities then np else mediumWord
  , status := backlogWord }

/-- Sample input for the section characterization. -/
def sampleSummary : List Char := "## Suggested Tickets\n| **Fix** | It broke | HIGH |".toList

/-- The section the regex extracts from `sampleSummary`. -/
def sampleSection : List Char := "| **Fix** | It broke | HIGH |".toList

/-- Sample input with no "Suggested Tickets" heading anywhere. -/
def noHeadingSample : List Char := "Meeting notes: action items follow the agenda.".toList

/-- Sample input whose only table row has a title cell consisting of two
    dashes (not containing the three-dash run the code looks for). -/
def dashSample : List Char := "## Suggested Tickets\n| -- | d | low |".toList

/-- Sample input whose only table row is skipped because its title cell
    contains the word `title` case-insensitively. -/
def headerSkipSample : List Char := "## Suggested Tickets\n| Subtitles | d | low |".toList

/-- The section of `headerSkipSample`. -/
def headerSkipSection : List Char := "| Subtitles | d | low |".toList

/-- The single row match inside `headerSkipSection`. -/
def headerSkipRow : RowMatch :=
  { title := "Subtitles ".toList, descr := "d ".toList, prio := "low".toList }

/-- Sample input whose middle row has a priority cell `very high`, which the
    row regex cannot match as a single `\w+` word. -/
def cascadeSample : List Char :=
  "## Suggested Tickets\n| A | da | high |\n| B | db | very high |\n| C | dc | low |".toList

/-- A generic success response. -/
def okResp : HttpResp := { status := 200, jsonMsg := some none }

/-- A failing response whose JSON body carries a message. -/
def boomResp : HttpResp := { status := 500, jsonMsg := some (some "boom".toList) }

/-- An authentication-failure response. -/
def resp401 : HttpResp := { status := 401, jsonMsg := some none }

/-- A sample create-issue request with the given title. -/
def sampleReq (t : List Char) : CreateIssueRequest :=
  { board_id := 1, title := t, description := none, status := none, priority := none
  , assignee_id := none, reporter_id := 7, due_date := none, estimated_hours := none
  , label_ids := none }

def reqA : CreateIssueRequest := sampleReq "a".toList

def reqB : CreateIssueRequest := sampleReq "b".toList

def reqC : CreateIssueRequest := sampleReq "c".toList

/-- The trace entry recorded for one issue-creation fetch. -/
def issueCall (c : ConfigVariant.ETTConfig) (r : CreateIssueRequest) :
    List Char × Option CreateIssueRequest :=
  (c.apiUrl ++ issuesEndpoint, some r)

/-- A fully populated configuration. -/
def seqConfig : ConfigVariant.ETTConfig :=
  { apiUrl := "http://ett".toList, accessToken := "t".toList
  , defaultBoardId := none, defaultReporterId := none }

/-- A configured world whose remote accepts the first call and rejects all
    later ones. -/
def seqWorld : ConfigVariant.World :=
  { config := some seqConfig
  , oracle := fun i => if i = 0 then okResp else boomResp
  , calls := [] }

/-- The configuration of the C3 scenario: an empty URL with a credential. -/
def emptyUrlConfig : ConfigVariant.ETTConfig :=
  { apiUrl := [], accessToken := "x".toList
  , defaultBoardId := none, defaultReporterId := none }

/-- An unconfigured config-variant world. -/
def blankCfgWorld : ConfigVariant.World :=
  { config := none, oracle := fun _ => okResp, calls := [] }

/-- A sample active session record. -/
def sampleAuth : LoginVariant.ETTAuthState :=
  { accessToken := "x".toList, refreshToken := none, userId := 1
  , userName := "u".toList, expiresAt := none }

/-- The same session record with a different (non-empty) token. -/
def sampleAuthY : LoginVariant.ETTAuthState :=
  { sampleAuth with accessToken := "y".toList }

/-- A login-variant world with an empty API URL but a live session. -/
def noUrlAuthWorld : LoginVariant.World :=
  { apiUrl := [], auth := some sampleAuth, stored := some sampleAuth
  , oracle := fun _ => okResp, calls := [] }

/-- A login-variant world whose remote replies 401 to every call. -/
def expiredWorld : LoginVariant.World :=
  { apiUrl := "http://ett".toList, auth := some sampleAuth, stored := some sampleAuth
  , oracle := fun _ => resp401, calls := [] }

/-- A login-variant world with no session. -/
def loggedOutWorld : LoginVariant.World :=
  { apiUrl := "http://ett".toList, auth := none, stored := none
  , oracle := fun _ => okResp, calls := [] }

/-- Two configurations differing only in the (non-empty) token value. -/
def tokenConfigA : ConfigVariant.ETTConfig :=
  { apiUrl := "http://ett".toList, accessToken := "secret1".toList
  , defaultBoardId := some 3, defaultReporterId := some 9 }

def tokenConfigB : ConfigVariant.ETTConfig :=
  { tokenConfigA with accessToken := "another".toList }

def cfgWorldA : ConfigVariant.World :=
  { config := some tokenConfigA, oracle := fun _ => okResp, calls := [] }

def cfgWorldB : ConfigVariant.World :=
  { config := some tokenConfigB, oracle := fun _ => okResp, calls := [] }

/-- Two login-variant worlds differing only in the session token value. -/
def authWorldA : LoginVariant.World :=
  { apiUrl := "http://ett".toList, auth := some sampleAuth, stored := some sampleAuth
  , oracle := fun _ => okResp, calls := [] }

def authWorldB : LoginVariant.World :=
  { apiUrl := "http://ett".toList, auth := some sampleAuthY, stored := some sampleAuthY
  , oracle := fun _ => okResp, calls := [] }

/-- Sample section used to exhibit a row match. -/
def rowWordSample : List Char := "| a | b | c |".toList

/-- The single row match inside `rowWordSample`. -/
def rowWordMatch : RowMatch :=
  { title := "a ".toList, descr := "b ".toList, prio := "c".toList }

/-! ## Theorems about the parser -/

/-- Helper: a prefix of length at most the `takeWhile` run satisfies the
    class pointwise. -/
theorem all_cls_of_take_le_takeWhile (cls : Char → Bool) :
    ∀ (s : List Char) (k : Nat), k ≤ (s.takeWhile cls).length →
      ∀ c ∈ s.take k, cls c = true := by
  intro s
  induction s with
  | nil =>
    intro k hk c hc
    simp at hc
  | cons x xs ih =>
    intro k hk c hc
    by_cases hx : cls x = true
    · cases k with
      | zero => simp at hc
      | succ k =>
        rw [List.takeWhile_cons, if_pos hx] at hk
        rw [List.take_succ_cons] at hc
        rcases List.mem_cons.mp hc with rfl | hc
        · exact hx
        · exact ih k (Nat.succ_le_succ_iff.mp hk) c hc
    · rw [List.takeWhile_cons, if_neg hx] at hk
      have hk0 : k = 0 := Nat.le_zero.mp hk
      subst hk0
      simp at hc

/-- Helper: every split produced by `splitsStar` has its consumed run
    inside the class. -/
theorem all_cls_of_mem_splitsStar (cls : Char → Bool) (s : List Char)
    (p : List Char × List Char) (h : p ∈ splitsStar cls s) :
    ∀ c ∈ p.1, cls c = true := by
  unfold splitsStar at h
  simp only [List.mem_map, List.mem_range] at h
  obtain ⟨i, -, rfl⟩ := h
  exact all_cls_of_take_le_takeWhile cls s _ (Nat.sub_le _ _)

/-- Helper: every split produced by `splitsPlus` has a non-empty consumed
    run inside the class. -/
theorem mem_splitsPlus_spec (cls : Char → Bool) (s : List Char)
    (p : List Char × List Char) (h : p ∈ splitsPlus cls s) :
    p.1 ≠ [] ∧ ∀ c ∈ p.1, cls c = true := by
  unfold splitsPlus at h
  rw [List.mem_filter] at h
  refine ⟨?_, all_cls_of_mem_splitsStar cls s p h.1⟩
  have := h.2
  simp only [Bool.not_eq_true'] at this
  exact fun hnil => by simp [hnil] at this

/-- Helper: the priority capture of any row-regex match candidate is a
    non-empty run of `\w` characters. -/
theorem prio_word_of_mem_rowCandidates (s : List Char) (m : RowMatch) (rest : List Char)
    (h : (m, rest) ∈ rowCandidates s) :
    m.prio ≠ [] ∧ ∀ c ∈ m.prio, isWordChar c = true := by
  unfold rowCandidates at h
  simp only [List.mem_flatMap, List.mem_map] at h
  obtain ⟨s1, -, q2, -, s3, -, s4, -, qt, -, s6, -, s7, -, q8, -, s9, -, q10, -,
    qd, -, q12, -, s13, -, q14, -, qp, hqp, q16, -, s17, -, heq⟩ := h
  have hp : m.prio = qp.1 := by
    have := congrArg Prod.fst heq
    simp at this
    rw [← this]
  rw [hp]
  exact mem_splitsPlus_spec isWordChar q14.2 qp hqp

/-- Helper: a successful leftmost search yields a candidate of some suffix. -/
theorem findRowFrom_mem_candidates :
    ∀ (s : List Char) (m : RowMatch) (rest : List Char),
      findRowFrom s = some (m, rest) → ∃ t, (m, rest) ∈ rowCandidates t := by
  intro s
  induction s with
  | nil =>
    intro m rest h
    simp [findRowFrom] at h
  | cons c cs ih =>
    intro m rest h
    rw [findRowFrom] at h
    cases hl : rowCandidates (c :: cs) with
    | nil =>
      rw [hl] at h
      exact ih m rest h
    | cons x xs =>
      rw [hl] at h
      simp only [List.head?_cons, Option.some.injEq] at h
      exact ⟨c :: cs, by rw [hl, ← h]; exact List.mem_cons_self x xs⟩

/-- Helper: every match produced by the exec loop is a candidate of some
    suffix of some text. -/
theorem execRowsAux_mem_candidates :
    ∀ (fuel : Nat) (s : List Char) (m : RowMatch), m ∈ execRowsAux fuel s →
      ∃ t rest, (m, rest) ∈ rowCandidates t := by
  intro fuel
  induction fuel with
  | zero =>
    intro s m h
    simp [execRowsAux] at h
  | succ n ih =>
    intro s m h
    rw [execRowsAux] at h
    cases hf : findRowFrom s with
    | none =>
      rw [hf] at h
      simp at h
    | some mr =>
      rw [hf] at h
      rcases List.mem_cons.mp h with rfl | hmem
      · obtain ⟨t, ht⟩ := findRowFrom_mem_candidates s mr.1 mr.2 (by rw [hf])
        exact ⟨t, mr.2, ht⟩
      · exact ih mr.2 m hmem

/-- Helper: the push-unless-skipped fold over the match list is a filter
    followed by a map. -/
theorem parse_eq_map_filter (s sec : List Char) (h : findSection s = some sec) :
    parseTicketsFromSummary s
      = ((execRows sec).filter (fun m => !skipRow m.title)).map mkTicket := by
  have hfold : ∀ (l : List RowMatch) (acc : List ParsedTicket),
      l.foldl (fun a m => if skipRow m.title then a else a ++ [mkTicket m]) acc
        = acc ++ (l.filter (fun m => !skipRow m.title)).map mkTicket := by
    intro l
    induction l with
    | nil => intro acc; simp
    | cons m ms ih =>
      intro acc
      by_cases hm : skipRow m.title
      · simp [List.foldl_cons, hm, ih, List.filter_cons]
      · simp [List.foldl_cons, hm, ih, List.filter_cons]
  unfold parseTicketsFromSummary
  rw [h]
  simpa using hfold (execRows sec) []

/-- Helper: the code's ticket construction coincides with the spec-side one. -/
theorem mkTicket_eq_specMkTicket : mkTicket = specMkTicket := by
  funext m
  unfold mkTicket specMkTicket
  by_cases hv : lowerStr (jsTrim m.prio) ∈ validPriorities
  · have hc : validPriorities.contains (lowerStr (jsTrim m.prio)) = true :=
      List.elem_iff.mpr hv
    simp [hv, hc]
  · have hc : validPriorities.contains (lowerStr (jsTrim m.prio)) = false :=
      Bool.eq_false_iff.mpr (fun hh => hv (List.elem_iff.mp hh))
    simp [hv, hc]

/-- C1: for every markdown input containing a "Suggested Tickets" section,
    `parseTicketsFromSummary` returns one partial ticket per matching data
    row (a row-regex match not skipped as header/separator), in match order,
    each with title and description whitespace-trimmed, priority trimmed and
    lower-cased and replaced by `medium` exactly when the trimmed
    lower-cased raw value is not one of urgent/high/medium/low/none, and
    status `backlog` on every ticket. -/
theorem parse_tickets_section_characterization (s sec : List Char)
    (h : findSection s = some sec) :
    parseTicketsFromSummary s
      = ((execRows sec).filter (fun m => !skipRow m.title)).map specMkTicket
    ∧ ∀ t ∈ parseTicketsFromSummary s, t.status = backlogWord := by
  have hp := parse_eq_map_filter s sec h
  constructor
  · rw [hp, mkTicket_eq_specMkTicket]
  · intro t ht
    rw [hp] at ht
    simp only [List.mem_map] at ht
    obtain ⟨m, -, rfl⟩ := ht
    rfl

/-- Witness for C1 at a concrete input. -/
theorem parse_tickets_section_witness :
    findSection sampleSummary = some sampleSection
    ∧ parseTicketsFromSummary sampleSummary
        = ((execRows sampleSection).filter (fun m => !skipRow m.title)).map specMkTicket :=
  ⟨by decide, (parse_tickets_section_characterization sampleSummary sampleSection (by decide)).1⟩

/-- Helper: when the heading literal occurs nowhere (case-insensitively),
    the section regex does not match. -/
theorem findSection_eq_none_of_no_heading (s : List Char)
    (h : hasSubstr headingKeyword (lowerStr s) = false) :
    findSection s = none := by
  induction s with
  | nil => rfl
  | cons c cs ih =>
    have h' : headingKeyword.isPrefixOf (lowerStr (c :: cs)) = false
        ∧ hasSubstr headingKeyword (lowerStr cs) = false := by
      have hcons : lowerStr (c :: cs) = Char.toLower c :: lowerStr cs := rfl
      rw [hcons] at h
      rw [hasSubstr] at h
      simp only [Bool.or_eq_false_iff] at h
      exact ⟨by rw [hcons]; exact h.1, h.2⟩
    rw [findSection, matchHeadingAt, h'.1]
    simp only [Bool.false_eq_true, if_false]
    exact ih h'.2

/-- C5: for every input in which no heading matching "Suggested Tickets"
    (case-insensitive) occurs, including the empty string, the parser
    returns the empty sequence (it is a total function, so it cannot
    raise). -/
theorem parse_no_heading_returns_empty (s : List Char)
    (h : hasSubstr headingKeyword (lowerStr s) = false) :
    parseTicketsFromSummary s = [] := by
  unfold parseTicketsFromSummary
  rw [findSection_eq_none_of_no_heading s h]

/-- Witness for C5 at a concrete input. -/
theorem parse_no_heading_witness :
    hasSubstr headingKeyword (lowerStr noHeadingSample) = false
    ∧ parseTicketsFromSummary noHeadingSample = [] :=
  ⟨by decide, parse_no_heading_returns_empty noHeadingSample (by decide)⟩

/-- C6 counterexample: a row whose title cell consists of two dashes is NOT
    excluded — the code only skips a title containing the three-character
    run `---` (or the word `title`), so the two-dash row is emitted. -/
theorem dash_title_row_not_excluded_counterexample :
    parseTicketsFromSummary dashSample
      = [{ title := "--".toList, description := "d".toList,
           priority := "low".toList, status := backlogWord }] := by
  decide

/-- C6 (amended): a row-regex match whose title capture contains the word
    `title` in any letter case, or contains three consecutive dashes, is
    excluded from the output: the result is the same as if the match list
    did not contain that row at all. -/
theorem header_or_dashes_row_excluded (s sec : List Char)
    (pre post : List RowMatch) (m : RowMatch)
    (hs : findSection s = some sec)
    (hrows : execRows sec = pre ++ m :: post)
    (hskip : hasSubstr titleWord (lowerStr m.title) = true
      ∨ hasSubstr dashesWord m.title = true) :
    parseTicketsFromSummary s
      = ((pre ++ post).filter (fun x => !skipRow x.title)).map mkTicket := by
  have hp := parse_eq_map_filter s sec hs
  have hm : skipRow m.title = true := by
    unfold skipRow
    rcases hskip with hh | hh <;> simp [hh]
  rw [hp, hrows]
  simp [List.filter_append, List.filter_cons, hm]

/-- Witness for the amended C6 at a concrete input. -/
theorem header_or_dashes_row_excluded_witness :
    parseTicketsFromSummary headerSkipSample = [] := by
  have h := header_or_dashes_row_excluded headerSkipSample headerSkipSection [] [] headerSkipRow
    (by decide) (by decide) (Or.inl (by decide))
  simpa using h

/-- C10 counterexample: the middle row `| B | db | very high |` (priority
    cell not a single word) is not dropped silently: the scanner re-matches
    starting inside it and emits a spurious ticket whose title is the
    invalid priority text, with priority defaulted to `medium`, and the
    following row `C` is consumed and lost. -/
theorem invalid_priority_row_counterexample :
    parseTicketsFromSummary cascadeSample
      = [{ title := "A".toList, description := "da".toList,
           priority := "high".toList, status := backlogWord },
         { title := "very high".toList, description := [],
           priority := mediumWord, status := backlogWord }]
    ∧ ({ title := "C".toList, description := "dc".toList,
         priority := "low".toList, status := backlogWord } : ParsedTicket)
        ∉ parseTicketsFromSummary cascadeSample := by
  decide

/-- C10 (amended): no row-regex match ever has a priority capture that is
    not a single non-empty `\w+` word, so a table row whose priority cell is
    not such a word never matches as a row.  (The counterexample shows the
    row is nevertheless not dropped silently: the scan can resume inside it
    and emit a spurious medium-priority ticket.) -/
theorem row_match_priority_word_chars (sec : List Char) (m : RowMatch)
    (h : m ∈ execRows sec) :
    m.prio ≠ [] ∧ ∀ c ∈ m.prio, isWordChar c = true := by
  unfold execRows at h
  obtain ⟨t, rest, ht⟩ := execRowsAux_mem_candidates sec.length sec m h
  exact prio_word_of_mem_rowCandidates t m rest ht

/-- Witness for the amended C10 at a concrete section. -/
theorem row_match_priority_word_chars_witness :
    rowWordMatch ∈ execRows rowWordSample
    ∧ (rowWordMatch.prio ≠ [] ∧ ∀ c ∈ rowWordMatch.prio, isWordChar c = true) :=
  ⟨by decide, row_match_priority_word_chars rowWordSample rowWordMatch (by decide)⟩

/-! ## Theorems about the service -/

/-- Helper: a non-nil list is not `isEmpty`. -/
theorem isEmpty_false_of_ne_nil {α : Type} {l : List α} (h : l ≠ []) : l.isEmpty = false := by
  cases l with
  | nil => exact absurd rfl h
  | cons a as => rfl

/-- C9: `createIssues` on the empty list succeeds with the empty list,
    leaving the world unchanged (no configuration or authentication check,
    no dispatched fetch), in both variants, even for a completely
    unconfigured service. -/
theorem create_issues_empty_no_effect :
    (∀ w : LoginVariant.World, LoginVariant.createIssues [] w = (w, Except.ok []))
    ∧ (∀ w : ConfigVariant.World, ConfigVariant.createIssues [] w = (w, Except.ok [])) :=
  ⟨fun _ => rfl, fun _ => rfl⟩

/-- Witness for C9 at a concrete (unconfigured) world. -/
theorem create_issues_empty_witness :
    ConfigVariant.createIssues [] blankCfgWorld = (blankCfgWorld, Except.ok []) :=
  create_issues_empty_no_effect.2 blankCfgWorld

/-- C2: `createIssues` submits requests strictly in input order, awaiting
    each before issuing the next; when the remote call for request `b`
    fails, every request before `b` has been dispatched (in order and
    committed remotely), `b` is dispatched and its error propagates, and no
    later request is ever attempted. -/
theorem create_issues_sequential_stop_on_failure
    (pre : List CreateIssueRequest) (b : CreateIssueRequest) (post : List CreateIssueRequest)
    (w : ConfigVariant.World) (c : ConfigVariant.ETTConfig)
    (hc : w.config = some c)
    (hok : ∀ i, i < pre.length → respOk (w.oracle (w.calls.length + i)) = true)
    (hbad : respOk (w.oracle (w.calls.length + pre.length)) = false) :
    ConfigVariant.createIssues (pre ++ b :: post) w
      = ({ w with calls := w.calls ++ (pre ++ [b]).map (issueCall c) },
         Except.error (translateErr (w.oracle (w.calls.length + pre.length)))) := by
  induction pre generalizing w with
  | nil =>
    have hbad0 : respOk (w.oracle w.calls.length) = false := by simpa using hbad
    show ConfigVariant.createIssues (b :: post) w = _
    unfold ConfigVariant.createIssues ConfigVariant.createIssue ConfigVariant.request
    rw [hc]
    simp [hbad0, issueCall]
  | cons p ps ih =>
    have hok0 : respOk (w.oracle w.calls.length) = true := by
      simpa using hok 0 (by simp)
    have hcall : ConfigVariant.createIssue p w
        = ({ w with calls := w.calls ++ [issueCall c p] },
           Except.ok (w.oracle w.calls.length)) := by
      unfold ConfigVariant.createIssue ConfigVariant.request
      rw [hc]
      simp [hok0, issueCall]
    have h1 : ({ w with calls := w.calls ++ [issueCall c p] } : ConfigVariant.World).config
        = some c := hc
    have hok' : ∀ i, i < ps.length →
        respOk (({ w with calls := w.calls ++ [issueCall c p] } : ConfigVariant.World).oracle
          (({ w with calls := w.calls ++ [issueCall c p] } : ConfigVariant.World).calls.length + i))
          = true := by
      intro i hi
      have hidx : (w.calls ++ [issueCall c p]).length + i = w.calls.length + (i + 1) := by
        simp
        omega
      show respOk (w.oracle ((w.calls ++ [issueCall c p]).length + i)) = true
      rw [hidx]
      exact hok (i + 1) (by simpa using Nat.succ_lt_succ hi)
    have hbad' : respOk (({ w with calls := w.calls ++ [issueCall c p] } : ConfigVariant.World).oracle
        (({ w with calls := w.calls ++ [issueCall c p] } : ConfigVariant.World).calls.length
          + ps.length)) = false := by
      have hidx : (w.calls ++ [issueCall c p]).length + ps.length
          = w.calls.length + (p :: ps).length := by
        simp
        omega
      show respOk (w.oracle ((w.calls ++ [issueCall c p]).length + ps.length)) = false
      rw [hidx]
      exact hbad
    have hrec := ih { w with calls := w.calls ++ [issueCall c p] } h1 hok' hbad'
    show ConfigVariant.createIssues ((p :: ps) ++ b :: post) w = _
    rw [List.cons_append]
    unfold ConfigVariant.createIssues
    rw [hcall]
    dsimp only
    rw [hrec]
    have hidx2 : (w.calls ++ [issueCall c p]).length + ps.length
        = w.calls.length + (p :: ps).length := by
      simp
      omega
    dsimp only
    rw [hidx2]
    simp [List.append_assoc]

/-- Witness for C2 at a concrete input: of `[a, b, c]`, request `a`
    succeeds, `b` fails and its error propagates, `c` is never dispatched. -/
theorem create_issues_sequential_witness :
    ConfigVariant.createIssues [reqA, reqB, reqC] seqWorld
      = ({ seqWorld with calls := seqWorld.calls ++ ([reqA] ++ [reqB]).map (issueCall seqConfig) },
         Except.error (translateErr (seqWorld.oracle (seqWorld.calls.length + 1)))) :=
  create_issues_sequential_stop_on_failure [reqA] reqB [reqC] seqWorld seqConfig rfl
    (by decide) (by decide)

/-- C3 counterexample: after `configure({apiUrl: "", accessToken: "x"})` the
    config record is non-null, so an authorized call does NOT fail with a
    configuration error: a fetch is dispatched (to the bare endpoint path)
    and the call goes through. -/
theorem configured_empty_url_dispatches_counterexample :
    (ConfigVariant.getBoards (ConfigVariant.configure emptyUrlConfig blankCfgWorld)).1.calls
        = [(boardsEndpoint, none)]
    ∧ (ConfigVariant.getBoards (ConfigVariant.configure emptyUrlConfig blankCfgWorld)).2
        = Except.ok okResp :=
  ⟨rfl, rfl⟩

/-- C3 (amended): the login-based variant fails fast (no fetch dispatched,
    world unchanged) with a descriptive error when the base URL is empty, or
    when it is set but no non-empty credential is stored; the config-based
    variant fails fast exactly when no configuration record exists at all
    (it does not inspect the record's URL or token). -/
theorem request_guard_behavior :
    (∀ (w : LoginVariant.World) (ep : List Char) (b : Option CreateIssueRequest),
        w.apiUrl = [] →
        LoginVariant.request ep b w = (w, Except.error LoginVariant.noUrlMsg))
    ∧ (∀ (w : LoginVariant.World) (ep : List Char) (b : Option CreateIssueRequest),
        w.apiUrl ≠ [] → LoginVariant.isAuthenticated w = false →
        LoginVariant.request ep b w = (w, Except.error LoginVariant.notAuthMsg))
    ∧ (∀ (w : ConfigVariant.World) (ep : List Char) (b : Option CreateIssueRequest),
        w.config = none →
        ConfigVariant.request ep b w = (w, Except.error ConfigVariant.notConfiguredMsg)) := by
  refine ⟨?_, ?_, ?_⟩
  · intro w ep b h
    unfold LoginVariant.request
    simp [h]
  · intro w ep b h1 h2
    unfold LoginVariant.request
    simp [isEmpty_false_of_ne_nil h1, h2]
  · intro w ep b h
    unfold ConfigVariant.request
    simp [h]

/-- Witness for the amended C3 at concrete worlds. -/
theorem request_guard_witness :
    LoginVariant.request boardsEndpoint none noUrlAuthWorld
        = (noUrlAuthWorld, Except.error LoginVariant.noUrlMsg)
    ∧ LoginVariant.request boardsEndpoint none loggedOutWorld
        = (loggedOutWorld, Except.error LoginVariant.notAuthMsg)
    ∧ ConfigVariant.request boardsEndpoint none blankCfgWorld
        = (blankCfgWorld, Except.error ConfigVariant.notConfiguredMsg) :=
  ⟨request_guard_behavior.1 noUrlAuthWorld boardsEndpoint none rfl,
   request_guard_behavior.2.1 loggedOutWorld boardsEndpoint none (by decide) rfl,
   request_guard_behavior.2.2 blankCfgWorld boardsEndpoint none rfl⟩

/-- C4: in the login-based variant, an authorized call that receives HTTP
    401 clears the active session (in-memory auth and the persisted record)
    and raises the session-expired error, so a subsequent
    `isAuthenticated()` reports false and the stored record is gone. -/
theorem unauthorized_response_clears_session
    (w : LoginVariant.World) (ep : List Char) (b : Option CreateIssueRequest)
    (hurl : w.apiUrl ≠ [])
    (hauth : LoginVariant.isAuthenticated w = true)
    (h401 : (w.oracle w.calls.length).status = 401) :
    LoginVariant.request ep b w
      = ({ w with
             auth := none
             stored := none
             calls := w.calls ++ [(w.apiUrl ++ ep, b)] },
         Except.error LoginVariant.sessionExpiredMsg)
    ∧ LoginVariant.isAuthenticated (LoginVariant.request ep b w).1 = false
    ∧ (LoginVariant.request ep b w).1.stored = none := by
  have hmain : LoginVariant.request ep b w
      = ({ w with
             auth := none
             stored := none
             calls := w.calls ++ [(w.apiUrl ++ ep, b)] },
         Except.error LoginVariant.sessionExpiredMsg) := by
    unfold LoginVariant.request LoginVariant.logout
    simp [isEmpty_false_of_ne_nil hurl, hauth, h401]
  refine ⟨hmain, ?_, ?_⟩
  · rw [hmain]
    rfl
  · rw [hmain]

/-- Witness for C4 at a concrete world whose remote replies 401. -/
theorem unauthorized_response_clears_session_witness :
    LoginVariant.request boardsEndpoint none expiredWorld
      = ({ expiredWorld with
             auth := none
             stored := none
             calls := expiredWorld.calls ++ [(expiredWorld.apiUrl ++ boardsEndpoint, none)] },
         Except.error LoginVariant.sessionExpiredMsg)
    ∧ LoginVariant.isAuthenticated (LoginVariant.request boardsEndpoint none expiredWorld).1
        = false
    ∧ (LoginVariant.request boardsEndpoint none expiredWorld).1.stored = none :=
  unauthorized_response_clears_session expiredWorld boardsEndpoint none (by decide) rfl rfl

/-- C7: the redacted views never depend on the raw access-token value: two
    records that differ only in their (non-empty) token produce identical
    `getConfig()` and `getAuthState()` results, the token being reflected
    only as a presence boolean. -/
theorem redacted_views_token_noninterference
    (w1 w2 : ConfigVariant.World) (c1 c2 : ConfigVariant.ETTConfig)
    (hw1 : w1.config = some c1) (hw2 : w2.config = some c2)
    (hurl : c1.apiUrl = c2.apiUrl)
    (hboard : c1.defaultBoardId = c2.defaultBoardId)
    (hrep : c1.defaultReporterId = c2.defaultReporterId)
    (ht1 : c1.accessToken ≠ []) (ht2 : c2.accessToken ≠ [])
    (v1 v2 : LoginVariant.World) (a1 a2 : LoginVariant.ETTAuthState)
    (hv1 : v1.auth = some a1) (hv2 : v2.auth = some a2)
    (hname : a1.userName = a2.userName) (hid : a1.userId = a2.userId)
    (hk1 : a1.accessToken ≠ []) (hk2 : a2.accessToken ≠ []) :
    ConfigVariant.getConfig w1 = ConfigVariant.getConfig w2
    ∧ LoginVariant.getAuthState v1 = LoginVariant.getAuthState v2 := by
  constructor
  · unfold ConfigVariant.getConfig
    rw [hw1, hw2]
    simp [hurl, hboard, hrep, isEmpty_false_of_ne_nil ht1, isEmpty_false_of_ne_nil ht2]
  · unfold LoginVariant.getAuthState LoginVariant.isAuthenticated
    rw [hv1, hv2]
    simp [hname, hid, isEmpty_false_of_ne_nil hk1, isEmpty_false_of_ne_nil hk2]

/-- Witness for C7 at concrete records differing only in the token. -/
theorem redacted_views_token_noninterference_witness :
    ConfigVariant.getConfig cfgWorldA = ConfigVariant.getConfig cfgWorldB
    ∧ LoginVariant.getAuthState authWorldA = LoginVariant.getAuthState authWorldB :=
  redacted_views_token_noninterference cfgWorldA cfgWorldB tokenConfigA tokenConfigB
    rfl rfl rfl rfl rfl (by decide) (by decide)
    authWorldA authWorldB sampleAuth sampleAuthY rfl rfl rfl rfl (by decide) (by decide)

/-- C8 counterexample: in the login-based variant a world with an empty base
    URL but a stored non-empty token still reports `isAuthenticated() =
    true`, so the claimed "both a base URL and a non-empty credential"
    characterization fails. -/
theorem is_authenticated_ignores_api_url_counterexample :
    LoginVariant.isAuthenticated noUrlAuthWorld = true ∧ noUrlAuthWorld.apiUrl = [] :=
  ⟨rfl, rfl⟩

/-- C8 (amended): `isConfigured()` is true iff a config record exists with
    non-empty URL and non-empty token; `isAuthenticated()` is true iff an
    auth record exists with a non-empty token, regardless of the base URL. -/
theorem configured_authenticated_characterization :
    (∀ w : ConfigVariant.World, ConfigVariant.isConfigured w = true
        ↔ ∃ c, w.config = some c ∧ c.apiUrl ≠ [] ∧ c.accessToken ≠ [])
    ∧ (∀ w : LoginVariant.World, LoginVariant.isAuthenticated w = true
        ↔ ∃ a, w.auth = some a ∧ a.accessToken ≠ []) := by
  constructor
  · intro w
    unfold ConfigVariant.isConfigured
    cases hc : w.config with
    | none => simp
    | some c =>
      simp only [Option.some.injEq, Bool.and_eq_true, Bool.not_eq_true']
      constructor
      · intro h
        refine ⟨c, rfl, ?_, ?_⟩
        · intro hn
          rw [hn] at h
          exact absurd h.1 (by simp)
        · intro hn
          rw [hn] at h
          exact absurd h.2 (by simp)
      · rintro ⟨c', hcc, hu, ht⟩
        cases hcc
        exact ⟨isEmpty_false_of_ne_nil hu, isEmpty_false_of_ne_nil ht⟩
  · intro w
    unfold LoginVariant.isAuthenticated
    cases ha : w.auth with
    | none => simp
    | some a =>
      simp only [Option.some.injEq, Bool.not_eq_true']
      constructor
      · intro h
        refine ⟨a, rfl, ?_⟩
        intro hn
        rw [hn] at h
        exact absurd h (by simp)
      · rintro ⟨a', haa, ht⟩
        cases haa
        exact isEmpty_false_of_ne_nil ht

/-- Witness for the amended C8 at concrete worlds. -/
theorem configured_authenticated_witness :
    LoginVariant.isAuthenticated expiredWorld = true
    ∧ ConfigVariant.isConfigured cfgWorldA = true :=
  ⟨(configured_authenticated_characterization.2 expiredWorld).mpr
      ⟨sampleAuth, rfl, by decide⟩,
   (configured_authenticated_characterization.1 cfgWorldA).mpr
      ⟨tokenConfigA, rfl, by decide, by decide⟩⟩
